import Mathlib

/-!
Verification of the IARA messaging core and retrieval engine.

This file gives a shallow embedding, in Lean 4, of the parts of the
repository that the specification talks about:

- the Message data model (src/schema.py),
- the MessageBroker publish and response-handler routing
  (src/infrastructure/messaging/message_broker.py),
- the BaseAgent processing loop, send_response, send_error and
  send_message_and_wait (src/core/agents/base_agent.py),
- the OrchestratorAgent command dispatch (src/core/agents/orchestrator_agent.py),
- the VectorRetriever store (src/core/rag/retriever.py) together with the
  query-cache handling of the information retrieval agent
  (src/core/agents/information_retrieval_agent.py).

Python dictionaries are modelled as association lists in insertion order;
the operations below preserve the dictionary invariant of unique keys, and
deletion is modelled as removal of every binding of the key, which agrees
with the Python del on key-unique dictionaries.  Callbacks are modelled as
opaque numeric tokens: the broker never inspects a callback, it only stores
and invokes it, so the routing decisions are fully captured by which token
is chosen.  Clock reads (datetime.now) are passed in explicitly as rational
numbers.  Floating point scores are modelled as rationals where only
ordering matters, and as real numbers for the cosine similarity analysis.
-/

namespace IARA

/-! ## Association list helpers (Python dict in insertion order) -/

/-- Lookup of a key, first binding wins (Python dict access). -/
def alookup {α β : Type} [DecidableEq α] : List (α × β) → α → Option β
  | [], _ => none
  | (k, v) :: rest, key => if k = key then some v else alookup rest key

/-- Assignment d[k] = v: replaces the value at the first binding of the key
in place, or appends a new binding at the end (Python dict assignment keeps
the original insertion position of an existing key). -/
def aset {α β : Type} [DecidableEq α] : List (α × β) → α → β → List (α × β)
  | [], key, v => [(key, v)]
  | (k, w) :: rest, key, v =>
    if k = key then (k, v) :: rest else (k, w) :: aset rest key v

/-- Deletion del d[k]: removes every binding of the key.  On key-unique
dictionaries, which all reachable states of the program are, this is the
same as removing the single binding. -/
def aeraseAll {α β : Type} [DecidableEq α] (l : List (α × β)) (key : α) :
    List (α × β) :=
  l.filter (fun p => !(decide (p.1 = key)))

theorem alookup_aset_self {α β : Type} [DecidableEq α]
    (l : List (α × β)) (k : α) (v : β) : alookup (aset l k v) k = some v := by
  induction l with
  | nil => simp [aset, alookup]
  | cons p rest ih =>
    by_cases h : p.1 = k
    · simp [aset, alookup, h]
    · simp [aset, alookup, h, ih]

theorem alookup_aset_ne {α β : Type} [DecidableEq α]
    (l : List (α × β)) (k k' : α) (v : β) (hne : k' ≠ k) :
    alookup (aset l k v) k' = alookup l k' := by
  induction l with
  | nil => simp [aset, alookup, Ne.symm hne]
  | cons p rest ih =>
    by_cases h : p.1 = k
    · have hp : p.1 ≠ k' := by rw [h]; exact Ne.symm hne
      simp [aset, alookup, h, hp, Ne.symm hne]
    · by_cases h' : p.1 = k'
      · simp [aset, alookup, h, h', hne]
      · simp [aset, alookup, h, h', ih]

theorem alookup_aeraseAll_self {α β : Type} [DecidableEq α]
    (l : List (α × β)) (k : α) : alookup (aeraseAll l k) k = none := by
  induction l with
  | nil => simp [aeraseAll, alookup]
  | cons p rest ih =>
    by_cases h : p.1 = k
    · simpa [aeraseAll, alookup, h] using ih
    · simpa [aeraseAll, alookup, h] using ih

theorem alookup_aeraseAll_ne {α β : Type} [DecidableEq α]
    (l : List (α × β)) (k k' : α) (hne : k' ≠ k) :
    alookup (aeraseAll l k) k' = alookup l k' := by
  induction l with
  | nil => simp [aeraseAll, alookup]
  | cons p rest ih =>
    by_cases h : p.1 = k
    · have hp : p.1 ≠ k' := by rw [h]; exact Ne.symm hne
      simpa [aeraseAll, alookup, h, hp, Ne.symm hne] using ih
    · by_cases h' : p.1 = k'
      · simp [aeraseAll, List.filter_cons, alookup, h, h', hne]
      · simpa [aeraseAll, List.filter_cons, alookup, h, h'] using ih

theorem aeraseAll_aset_self {α β : Type} [DecidableEq α]
    (l : List (α × β)) (k : α) (v : β) :
    aeraseAll (aset l k v) k = aeraseAll l k := by
  induction l with
  | nil => simp [aset, aeraseAll]
  | cons p rest ih =>
    by_cases h : p.1 = k
    · simp [aset, aeraseAll, h]
    · simp only [aset, h, if_neg h]
      simp [aeraseAll, h] at *
      exact ih

theorem alookup_isSome_of_mem {α β : Type} [DecidableEq α]
    {l : List (α × β)} {k : α} {v : β} (h : (k, v) ∈ l) :
    (alookup l k).isSome := by
  induction l with
  | nil => cases h
  | cons p rest ih =>
    rcases List.mem_cons.mp h with h1 | h1
    · rw [← h1]; simp [alookup]
    · by_cases hk : p.1 = k
      · simp [alookup, hk]
      · simpa [alookup, hk] using ih h1

/-! ## Data model (src/schema.py) -/

/-- AgentType enum of src/schema.py. -/
inductive AgentType where
  | orchestrator
  | llm
  | document_processing
  | information_retrieval
  | dialogue
  | security
deriving DecidableEq, Repr

/-- MessageType enum of src/schema.py. -/
inductive MessageType where
  | command
  | response
  | error
  | event
  | data
deriving DecidableEq, Repr

/-- MessagePriority enum of src/schema.py. -/
inductive MessagePriority where
  | low
  | medium
  | high
  | critical
deriving DecidableEq, Repr

/-- JSON-like payload values for the open Dict[str, Any] content field.
Scalar payloads suffice for every claim under study; nested dictionaries
(the payload field of the route action) are not needed because the
correlation-id analysis goes through the action-prefix dispatch path,
and the response construction under scrutiny is shared by both paths. -/
inductive Value where
  | vStr (s : String)
  | vNat (n : Nat)
  | vRat (q : Rat)
  | vBool (b : Bool)
  | vNone
deriving DecidableEq, Repr

/-- Message model of src/schema.py.  The id field defaults to the string
rendering of the construction-time clock, see default_message_id below;
reply_to is omitted because nothing in the repository env ever sets it. -/
structure Message where
  id : String
  sender : AgentType
  receiver : AgentType
  message_type : MessageType
  priority : MessagePriority := .medium
  content : List (String × Value)
  timestamp : Rat
  correlation_id : Option String := none
deriving DecidableEq, Repr

/-- Default id factory of Message: the Python source uses the string
interpolation of datetime.now().timestamp(), a clock reading, as the id. -/
def default_message_id (now : Rat) : String :=
  toString now

/-- Construction of a Message with the default id factory, the clock reading
passed explicitly. -/
def mkMessage (now : Rat) (sender receiver : AgentType) (mt : MessageType)
    (priority : MessagePriority) (content : List (String × Value))
    (cid : Option String) : Message :=
  { id := default_message_id now
    sender := sender
    receiver := receiver
    message_type := mt
    priority := priority
    content := content
    timestamp := now
    correlation_id := cid }

/-! ## MessageBroker (src/infrastructure/messaging/message_broker.py)

Subscriber callbacks and response handlers are opaque to the broker, so they
are modelled as numeric tokens; publish reports which tokens it invoked. -/

/-- Broker state: the subscriber table and the response-handler table,
the two dictionaries guarded by the broker lock. -/
structure BrokerState where
  subscribers : List (AgentType × List Nat)
  response_handlers : List (String × Nat)
deriving DecidableEq, Repr

/-- Outcome of MessageBroker.publish as observable routing behaviour. -/
inductive PublishResult where
  | handled (h : Nat)
  | delivered (cbs : List Nat)
  | dropped
deriving DecidableEq, Repr

/-- Response-handler lookup performed at the top of publish: only messages
of kind Response or Error with a set correlation_id consult the table. -/
def handlerFor (s : BrokerState) (m : Message) : Option Nat :=
  if m.message_type = MessageType.response ∨ m.message_type = MessageType.error then
    match m.correlation_id with
    | some cid => alookup s.response_handlers cid
    | none => none
  else none

/-- MessageBroker.publish.  When the correlated-response lookup succeeds the
handler is invoked and publish returns at once; otherwise the message falls
through to subscriber delivery, where an empty subscriber list means the
message is logged and dropped.  The broker state is returned to make the
absence of table mutation provable. -/
def publish (s : BrokerState) (m : Message) : PublishResult × BrokerState :=
  match handlerFor s m with
  | some handler => (.handled handler, s)
  | none =>
    let subscribers := (alookup s.subscribers m.receiver).getD []
    if subscribers.isEmpty then (.dropped, s)
    else (.delivered subscribers, s)

/-- MessageBroker.register_response_handler. -/
def register_response_handler (s : BrokerState) (cid : String) (h : Nat) :
    BrokerState :=
  { s with response_handlers := aset s.response_handlers cid h }

/-- MessageBroker.unregister_response_handler. -/
def unregister_response_handler (s : BrokerState) (cid : String) :
    BrokerState :=
  { s with response_handlers := aeraseAll s.response_handlers cid }

theorem publish_state_eq (s : BrokerState) (m : Message) :
    (publish s m).2 = s := by
  unfold publish
  cases handlerFor s m with
  | some h => rfl
  | none =>
    by_cases he : ((alookup s.subscribers m.receiver).getD []).isEmpty
    · simp [he]
    · simp [he]

/-! ## BaseAgent (src/core/agents/base_agent.py) -/

/-- BaseAgent.send_response: builds a Response addressed to the sender of
the original message, with correlation_id set to the id of the original
message.  The construction-time clock is passed explicitly. -/
def send_response (sender : AgentType) (now : Rat) (original_message : Message)
    (content : List (String × Value)) : Message :=
  { id := default_message_id now
    sender := sender
    receiver := original_message.sender
    message_type := .response
    priority := .medium
    content := content
    timestamp := now
    correlation_id := some original_message.id }

/-- BaseAgent.send_error: builds an Error message whose content is the
single-field dictionary with key error. -/
def send_error (sender : AgentType) (now : Rat) (receiver : AgentType)
    (error : String) (correlation_id : Option String) : Message :=
  { id := default_message_id now
    sender := sender
    receiver := receiver
    message_type := .error
    priority := .medium
    content := [("error", Value.vStr error)]
    timestamp := now
    correlation_id := correlation_id }

/-- Outcome of one handle_message invocation inside the processing loop:
the abstract handler either returns or raises with a description str(e). -/
abbrev HandlerOracle := Message → Except String Unit

/-- Messages emitted by the loop boundary of BaseAgent.process_messages for
one dequeued message: on an exception from handle_message the loop sends an
Error back to the sender when the message was a Command, and sends nothing
otherwise.  Messages sent by a successful handler itself are out of scope
here; the loop body adds none of its own. -/
def process_result (agent : AgentType) (handler : HandlerOracle) (now : Rat)
    (m : Message) : List Message :=
  match handler m with
  | .ok _ => []
  | .error e =>
    if m.message_type = MessageType.command then
      [send_error agent now m.sender ("Error processing command: " ++ e) (some m.id)]
    else []

/-- BaseAgent.process_messages over a finite inbox trace: each dequeued
message is paired with the clock reading used for any synthesized Error.
The loop never stops on a handler exception; it recurses on the remaining
inbox unconditionally. -/
def process_messages (agent : AgentType) (handler : HandlerOracle) :
    List (Rat × Message) → List Message
  | [] => []
  | (now, m) :: rest =>
    process_result agent handler now m ++ process_messages agent handler rest

/-- Concurrency oracle for send_message_and_wait: what the wait observes,
namely the registered handler firing with a terminal message before the
timeout, the timeout elapsing, or an exception raised between the try and
the finally of the Python source. -/
inductive WaitOutcome where
  | response (r : Message)
  | timeout
  | raised
deriving DecidableEq, Repr

/-- Result of the send_message_and_wait call as seen by the caller. -/
inductive SawResult where
  | returned (r : Option Message)
  | raised
deriving DecidableEq, Repr

/-- Trace of one send_message_and_wait call: the broker state at the moment
the message is published, the value returned to the caller, and the broker
state after the finally block ran. -/
structure SawTrace where
  state_at_publish : BrokerState
  publish_result : PublishResult
  result : SawResult
  final_state : BrokerState
deriving Repr

/-- BaseAgent.send_message_and_wait, sequentialized: register the one-shot
handler under message.id, publish the message, wait for the outcome, and
unregister the handler in the finally block on every exit path.  The
callback token hid stands for the closure response_handler of the source. -/
def send_message_and_wait (s : BrokerState) (message : Message) (hid : Nat)
    (outcome : WaitOutcome) : SawTrace :=
  let s1 := register_response_handler s message.id hid
  let published := publish s1 message
  { state_at_publish := s1
    publish_result := published.1
    result :=
      match outcome with
      | .response r => .returned (some r)
      | .timeout => .returned none
      | .raised => .raised
    final_state := unregister_response_handler published.2 message.id }

/-! ## OrchestratorAgent (src/core/agents/orchestrator_agent.py) -/

/-- Prefix test on character lists, the semantics of Python str.startswith. -/
def chars_start_with : List Char → List Char → Bool
  | [], _ => true
  | _ :: _, [] => false
  | p :: ps, c :: cs => decide (p = c) && chars_start_with ps cs

/-- Python str.startswith, written over the character lists of the two
strings so that it evaluates by computation. -/
def str_starts_with (s pre : String) : Bool :=
  chars_start_with pre.data s.data

/-- Action-prefix routing table of OrchestratorAgent._dispatch_command. -/
def dispatch_target (action : String) : Option AgentType :=
  if str_starts_with action "process_document" || str_starts_with action "get_document" then
    some .document_processing
  else if str_starts_with action "retrieve_" || str_starts_with action "search_" then
    some .information_retrieval
  else if str_starts_with action "generate_" || str_starts_with action "translate_" then
    some .llm
  else if str_starts_with action "auth_" || str_starts_with action "login_" then
    some .security
  else if str_starts_with action "chat_" || str_starts_with action "process_user_message" then
    some .dialogue
  else none

/-- Reading of content.get with the empty-string default used by
_dispatch_command; a non-string action would raise upstream instead. -/
def action_of (content : List (String × Value)) : String :=
  match alookup content "action" with
  | some (.vStr s) => s
  | _ => ""

/-- OrchestratorAgent._dispatch_command: resolve the target worker from the
action prefix, answer with an Error when no target matches or the target is
not registered, and otherwise forward a freshly constructed Command that
carries the original content, the original id as correlation_id, and the
original priority.  The list collects the messages the orchestrator sends. -/
def dispatch_command (registered : List AgentType) (now : Rat) (m : Message) :
    List Message :=
  let action := action_of m.content
  match dispatch_target action with
  | none =>
    [send_error .orchestrator now m.sender
      ("Unknown action: " ++ action ++ ". Don\x27t know which agent should handle it.")
      (some m.id)]
  | some target_agent =>
    if registered.contains target_agent then
      [{ id := default_message_id now
         sender := .orchestrator
         receiver := target_agent
         message_type := .command
         content := m.content
         timestamp := now
         correlation_id := some m.id
         priority := m.priority }]
    else
      [send_error .orchestrator now m.sender
        ("Agent " ++ toString (repr target_agent) ++ " not available to handle action " ++ action)
        (some m.id)]

/-! ## VectorRetriever (src/core/rag/retriever.py)

Embedding vectors are lists of rationals; the similarity scorer is passed as
a parameter because retrieve only uses it through the ordering of scores,
while the numerical content of _cosine_similarity is analysed separately
over the reals. -/

/-- DocumentChunk model of src/schema.py. -/
structure DocumentChunk where
  chunk_id : String
  document_id : String
  content : String
  metadata : List (String × Value) := []
  embedding : Option (List Rat) := none
  page_number : Option Int := none
  chunk_number : Int
deriving DecidableEq, Repr

/-- Retriever state: the chunk store and the parallel vector store, both
dictionaries in insertion order. -/
structure RetrieverState where
  documents : List (String × List DocumentChunk)
  vectors : List (String × List (String × List Rat))
deriving DecidableEq, Repr

/-- Python truthiness of the guard of add_documents: the embedding survives
the check exactly when it is neither None nor the empty list. -/
def embedding_is_truthy : Option (List Rat) → Bool
  | none => false
  | some l => !l.isEmpty

/-- Extension of a defaultdict(list) entry: documents[k].extend(lst)
creates the entry at the end when the key is new, and appends in place
otherwise. -/
def extendAt {γ : Type} : List (String × List γ) → String → List γ →
    List (String × List γ)
  | [], key, lst => [(key, lst)]
  | (k, v) :: rest, key, lst =>
    if k = key then (k, v ++ lst) :: rest else (k, v) :: extendAt rest key lst

/-- Grouping pass of add_documents: defaultdict(list) keyed by document_id,
iterated in first-appearance order. -/
def groupByDoc (chunks : List DocumentChunk) :
    List (String × List DocumentChunk) :=
  chunks.foldl (fun acc c => extendAt acc c.document_id [c]) []

/-- Assignment vectors[doc_id][chunk_id] = embedding on the nested
defaultdict(dict). -/
def vset (v : List (String × List (String × List Rat))) (d cid : String)
    (emb : List Rat) : List (String × List (String × List Rat)) :=
  match v with
  | [] => [(d, [(cid, emb)])]
  | (k, inner) :: rest =>
    if k = d then (k, aset inner cid emb) :: rest
    else (k, inner) :: vset rest d cid emb

/-- Lookup of the vector stored for a chunk of a document, following the
nested dictionary reads of the source. -/
def vlookup (s : RetrieverState) (d cid : String) : Option (List Rat) :=
  alookup ((alookup s.vectors d).getD []) cid

/-- VectorRetriever.add_documents: group the chunks by document_id, extend
each chunk list, and record the embedding of every chunk whose embedding is
truthy. -/
def add_documents (s : RetrieverState) (chunks : List DocumentChunk) :
    RetrieverState :=
  (groupByDoc chunks).foldl
    (fun st p =>
      { documents := extendAt st.documents p.1 p.2
        vectors :=
          p.2.foldl
            (fun v c =>
              if embedding_is_truthy c.embedding then
                vset v p.1 c.chunk_id (c.embedding.getD [])
              else v)
            st.vectors })
    s

/-- VectorRetriever.remove_document: count the chunks of the document, then
delete its chunk-list entry and its vector entry; the count is returned. -/
def remove_document (s : RetrieverState) (document_id : String) :
    Nat × RetrieverState :=
  let num_chunks := ((alookup s.documents document_id).getD []).length
  (num_chunks,
   { documents := aeraseAll s.documents document_id
     vectors := aeraseAll s.vectors document_id })

/-- Filter values: the document_id filter is either a single identifier or
a list of identifiers, mirroring the isinstance list check. -/
inductive FilterVal where
  | single (s : String)
  | multi (l : List String)
deriving DecidableEq, Repr

/-- Wrapping of a non-list filter value into a list. -/
def filterValList : FilterVal → List String
  | .single s => [s]
  | .multi l => l

/-- VectorRetriever._filter_document_ids: an empty (falsy) filter dictionary
searches every indexed document; a document_id filter restricts to exactly
those given ids that exist; any other filter dictionary again searches all
documents. -/
def filter_document_ids (s : RetrieverState)
    (filters : List (String × FilterVal)) : List String :=
  if filters.isEmpty then s.documents.map Prod.fst
  else
    match alookup filters "document_id" with
    | some fv =>
      (filterValList fv).filter (fun d => (alookup s.documents d).isSome)
    | none => s.documents.map Prod.fst

/-- Retrieval result record of the source, with the score kept abstract as
a rational. -/
structure RResult where
  document_id : String
  chunk_id : String
  content : String
  metadata : List (String × Value)
  score : Rat
deriving DecidableEq, Repr

/-- Chunk lookup through the dict comprehension of retrieve, in which a
later chunk with the same chunk_id overwrites an earlier one. -/
def chunk_by_id (cs : List DocumentChunk) (cid : String) :
    Option DocumentChunk :=
  alookup ((cs.map (fun c => (c.chunk_id, c))).reverse) cid

/-- Candidate results contributed by one document in retrieve: every entry
of the vector mapping of the document, in insertion order, paired with its
chunk when the chunk still exists, scored against the query embedding. -/
def per_document_results (s : RetrieverState)
    (score : List Rat → List Rat → Rat) (qe : List Rat) (doc_id : String) :
    List RResult :=
  let doc_vectors := (alookup s.vectors doc_id).getD []
  let doc_chunks := (alookup s.documents doc_id).getD []
  doc_vectors.filterMap
    (fun p =>
      match chunk_by_id doc_chunks p.1 with
      | none => none
      | some chunk =>
        some { document_id := doc_id
               chunk_id := p.1
               content := chunk.content
               metadata := chunk.metadata
               score := score qe p.2 })

/-- Accumulation of all_results over the filtered document ids, in scan
order. -/
def scan_results (s : RetrieverState) (score : List Rat → List Rat → Rat)
    (qe : List Rat) (docIds : List String) : List RResult :=
  (docIds.map (per_document_results s score qe)).flatten

/-- Descending comparison used by the final sort: Python list.sort with
reverse=True is a stable sort that puts larger scores first. -/
def descLe (a b : RResult) : Bool :=
  decide (b.score ≤ a.score)

/-- VectorRetriever.retrieve with the query embedding already computed (the
source obtains it from the external embedding service): filter the document
ids, return early when none remain, score all candidates, sort them stably
by descending score and keep the first k. -/
def retrieve (s : RetrieverState) (score : List Rat → List Rat → Rat)
    (qe : List Rat) (filters : List (String × FilterVal)) (k : Nat) :
    List RResult :=
  let document_ids := filter_document_ids s filters
  if document_ids.isEmpty then []
  else ((scan_results s score qe document_ids).mergeSort descLe).take k

/-! ## InformationRetrievalAgent query cache
(src/core/agents/information_retrieval_agent.py) -/

/-- Query cache entry: the formatted result set and the time it was
computed. -/
structure CacheEntry where
  results : List RResult
  timestamp : Rat
deriving DecidableEq, Repr

/-- State handled by _handle_remove_document: the retriever plus the query
cache of the agent. -/
structure IRAgentState where
  retriever : RetrieverState
  query_cache : List (String × CacheEntry)
deriving DecidableEq, Repr

/-- InformationRetrievalAgent._handle_remove_document on a request carrying
a document_id: remove the document from the retriever, reset the entire
query cache to the empty dictionary, and report the number of chunks
removed. -/
def handle_remove_document (st : IRAgentState) (document_id : String) :
    IRAgentState × Nat :=
  let removed := remove_document st.retriever document_id
  ({ retriever := removed.2, query_cache := [] }, removed.1)

/-! ## Cosine similarity (VectorRetriever._cosine_similarity)

The numerical analysis is carried out over the real numbers: np.dot of two
equal-length vectors is the sum of pairwise products, and np.linalg.norm is
the square root of the self dot product. -/

/-- Dot product of two vectors given as lists, as computed by np.dot. -/
def dotList : List ℝ → List ℝ → ℝ
  | x :: xs, y :: ys => x * y + dotList xs ys
  | _, _ => 0

/-- VectorRetriever._cosine_similarity: guard against a zero magnitude on
either side, otherwise divide the dot product by the product of the
magnitudes. -/
noncomputable def cosine_similarity (vec1 vec2 : List ℝ) : ℝ :=
  let dot_product := dotList vec1 vec2
  let magnitude1 := Real.sqrt (dotList vec1 vec1)
  let magnitude2 := Real.sqrt (dotList vec2 vec2)
  if magnitude1 = 0 ∨ magnitude2 = 0 then 0
  else dot_product / (magnitude1 * magnitude2)

theorem dotList_self_nonneg (v : List ℝ) : 0 ≤ dotList v v := by
  induction v with
  | nil => simp [dotList]
  | cons x xs ih => simpa [dotList] using add_nonneg (mul_self_nonneg x) ih

/-! ## Claim theorems -/

/-- C1 (amended): for every message published with kind Response or Error
and a set correlation_id, when a one-shot handler is registered under that
correlation_id the broker routes the message exclusively to it, bypassing
subscriber delivery and leaving the tables unchanged; when no such handler
is registered the message falls through to normal subscriber delivery, and
it is logged and dropped only when the receiver also has no subscribers. -/
theorem publish_correlated_routing (s : BrokerState) (m : Message)
    (cid : String)
    (hk : m.message_type = MessageType.response ∨ m.message_type = MessageType.error)
    (hc : m.correlation_id = some cid) :
    (∀ h, alookup s.response_handlers cid = some h →
        publish s m = (.handled h, s))
    ∧ (alookup s.response_handlers cid = none →
        publish s m =
          (if ((alookup s.subscribers m.receiver).getD []).isEmpty
           then PublishResult.dropped
           else PublishResult.delivered ((alookup s.subscribers m.receiver).getD []),
           s)) := by
  have hfor : handlerFor s m = alookup s.response_handlers cid := by
    unfold handlerFor
    rw [if_pos hk, hc]
  constructor
  · intro h hh
    unfold publish
    rw [hfor, hh]
  · intro hnone
    unfold publish
    rw [hfor, hnone]
    by_cases he : ((alookup s.subscribers m.receiver).getD []).isEmpty
    · simp [he]
    · simp [he]

/-- C1 witness: a Response correlated to a registered handler is routed to
that handler and the broker state is untouched. -/
theorem publish_correlated_routing_witness :
    publish { subscribers := [(AgentType.dialogue, [4])], response_handlers := [("1", 7)] }
        (mkMessage 2 .llm .dialogue .response .medium [] (some "1"))
      = (.handled 7,
         { subscribers := [(AgentType.dialogue, [4])], response_handlers := [("1", 7)] }) :=
  (publish_correlated_routing
      { subscribers := [(AgentType.dialogue, [4])], response_handlers := [("1", 7)] }
      (mkMessage 2 .llm .dialogue .response .medium [] (some "1"))
      "1" (Or.inl rfl) rfl).1 7 (by decide)

/-- C1 counterexample: a Response with a set correlation_id but no
registered handler is not dropped; it is delivered to the ordinary
subscribers of its receiver, contradicting the claim that it is never
delivered to them. -/
theorem publish_correlated_no_handler_counterexample :
    alookup (BrokerState.mk [(.orchestrator, [5])] []).response_handlers "1" = none
    ∧ (publish (BrokerState.mk [(.orchestrator, [5])] [])
        (mkMessage 2 .llm .orchestrator .response .medium [] (some "1"))).1
      = .delivered [5] := by
  constructor
  · rfl
  · decide

/-- C8: publishing a message that does not reach the correlated-response
path, to a receiver with zero subscribers, returns normally with the
message dropped and both broker tables unchanged.  The hypothesis
handlerFor s m = none holds for every non-Response, non-Error message and
for every correlated message with no registered handler. -/
theorem publish_no_subscribers_noop (s : BrokerState) (m : Message)
    (h1 : handlerFor s m = none)
    (h2 : (alookup s.subscribers m.receiver).getD [] = []) :
    publish s m = (.dropped, s) := by
  unfold publish
  rw [h1]
  simp [h2]

/-- C8 witness: a Command published to a receiver nobody subscribed to is
dropped and the broker state is unchanged. -/
theorem publish_no_subscribers_noop_witness :
    publish (BrokerState.mk [(.dialogue, [4])] [("1", 7)])
        (mkMessage 2 .dialogue .security .command .medium [] none)
      = (.dropped, BrokerState.mk [(.dialogue, [4])] [("1", 7)]) :=
  publish_no_subscribers_noop
    (BrokerState.mk [(.dialogue, [4])] [("1", 7)])
    (mkMessage 2 .dialogue .security .command .medium [] none)
    (by decide) (by decide)

/-- C9: the default Message id is the string rendering of the construction
clock, so two distinct constructions that read the same clock value receive
the same id; the id is not a unique token.  Here two different messages
built in the same instant share their id. -/
theorem message_id_clock_collision :
    (mkMessage (3 / 2) .dialogue .orchestrator .command .medium [] none).id
      = (mkMessage (3 / 2) .llm .security .command .medium [] none).id
    ∧ mkMessage (3 / 2) .dialogue .orchestrator .command .medium [] none
      ≠ mkMessage (3 / 2) .llm .security .command .medium [] none := by
  constructor
  · rfl
  · intro h
    exact absurd (congrArg Message.sender h) (by decide)

/-- C3: send_message_and_wait registers the one-shot handler under the id
of the outgoing message before publishing, returns the handled Response or
Error and an absent result on timeout, and on every exit path, including an
exception, the finally block removes the handler entry for the message id
while leaving every other handler entry and the subscriber table intact. -/
theorem send_message_and_wait_cleanup (s : BrokerState) (m : Message)
    (hid : Nat) (outcome : WaitOutcome) :
    alookup (send_message_and_wait s m hid outcome).state_at_publish.response_handlers m.id
      = some hid
    ∧ (send_message_and_wait s m hid outcome).result =
        (match outcome with
         | .response r => SawResult.returned (some r)
         | .timeout => SawResult.returned none
         | .raised => SawResult.raised)
    ∧ alookup (send_message_and_wait s m hid outcome).final_state.response_handlers m.id
        = none
    ∧ (send_message_and_wait s m hid outcome).final_state.subscribers = s.subscribers
    ∧ ∀ k, k ≠ m.id →
        alookup (send_message_and_wait s m hid outcome).final_state.response_handlers k
          = alookup s.response_handlers k := by
  have h2 : (send_message_and_wait s m hid outcome).final_state
      = unregister_response_handler (register_response_handler s m.id hid) m.id := by
    show unregister_response_handler
        (publish (register_response_handler s m.id hid) m).2 m.id
      = unregister_response_handler (register_response_handler s m.id hid) m.id
    rw [publish_state_eq]
  refine ⟨alookup_aset_self _ _ _, rfl, ?_, ?_, ?_⟩
  · rw [h2]
    simp only [unregister_response_handler, register_response_handler]
    rw [aeraseAll_aset_self]
    exact alookup_aeraseAll_self _ _
  · rw [h2]; rfl
  · intro k hk
    rw [h2]
    simp only [unregister_response_handler, register_response_handler]
    rw [aeraseAll_aset_self]
    exact alookup_aeraseAll_ne _ _ _ hk

/-- C3 witness: a concrete timed-out call removes its own handler entry and
preserves an unrelated entry. -/
theorem send_message_and_wait_cleanup_witness :
    alookup (send_message_and_wait (BrokerState.mk [] [("9", 3)])
        (mkMessage 1 .dialogue .orchestrator .command .medium [] none) 5
        .timeout).final_state.response_handlers
        (mkMessage 1 .dialogue .orchestrator .command .medium [] none).id = none
    ∧ alookup (send_message_and_wait (BrokerState.mk [] [("9", 3)])
        (mkMessage 1 .dialogue .orchestrator .command .medium [] none) 5
        .timeout).final_state.response_handlers "9" = some 3 := by
  refine ⟨(send_message_and_wait_cleanup (BrokerState.mk [] [("9", 3)])
      (mkMessage 1 .dialogue .orchestrator .command .medium [] none) 5 .timeout).2.2.1, ?_⟩
  have h := (send_message_and_wait_cleanup (BrokerState.mk [] [("9", 3)])
      (mkMessage 1 .dialogue .orchestrator .command .medium [] none) 5 .timeout).2.2.2.2
      "9" (by decide)
  exact h.trans (by decide)

/-- Caller Command of the C2 scenario: a Command with action generate_text
sent to the orchestrator by the dialogue agent at clock 1 via
send_message_and_wait, so its id is the key its one-shot handler is
registered under. -/
def c2_caller_message : Message :=
  mkMessage 1 .dialogue .orchestrator .command .medium
    [("action", Value.vStr "generate_text")] none

/-- Messages the orchestrator sends when dispatching the caller Command at
clock 2 with the llm worker registered. -/
def c2_forwarded : List Message :=
  dispatch_command [AgentType.llm] 2 c2_caller_message

/-- Terminal Response the llm worker produces for the forwarded Command at
clock 3, through BaseAgent.send_response. -/
def c2_worker_response (f : Message) : Message :=
  send_response .llm 3 f [("text", Value.vStr "hello")]

/-- Broker state while the caller is blocked in send_message_and_wait: all
three agents subscribed, and the one-shot handler registered under the id
of the caller Command. -/
def c2_broker : BrokerState :=
  { subscribers := [(.dialogue, [4]), (.orchestrator, [5]), (.llm, [6])]
    response_handlers := [(c2_caller_message.id, 7)] }

/-- C2: the correlation-id threading breaks on the code.  The orchestrator
forwards exactly one Command whose correlation_id is the id of the caller
Command, showing the threading intent, but the worker answers it through
send_response, which correlates the terminal Response to the id of the
forwarded message, not to the id of the caller Command.  Publishing that
Response against a broker whose one-shot handler is registered under the
caller id therefore misses the handler and falls through to the ordinary
subscriber of the orchestrator, so the caller can only time out. -/
theorem dispatch_correlation_bug :
    c2_forwarded.map Message.correlation_id = [some c2_caller_message.id]
    ∧ c2_forwarded.map (fun f => (c2_worker_response f).correlation_id)
      = [some (default_message_id 2)]
    ∧ default_message_id 2 ≠ c2_caller_message.id
    ∧ alookup c2_broker.response_handlers c2_caller_message.id = some 7
    ∧ c2_forwarded.map (fun f => (publish c2_broker (c2_worker_response f)).1)
      = [.delivered [5]] := by
  decide

theorem process_messages_append (agent : AgentType) (handler : HandlerOracle)
    (l1 l2 : List (Rat × Message)) :
    process_messages agent handler (l1 ++ l2)
      = process_messages agent handler l1 ++ process_messages agent handler l2 := by
  induction l1 with
  | nil => simp [process_messages]
  | cons p rest ih =>
    obtain ⟨now, m⟩ := p
    simp [process_messages, ih]

/-- C4: when handling a dequeued Command raises, the processing loop emits
an Error message to the sender of the Command, with content carrying the
error description and correlation_id equal to the id of the failed Command,
and the rest of the inbox is still processed exactly as it would have been;
the loop never terminates on a handler exception. -/
theorem process_messages_error_recovery (agent : AgentType)
    (handler : HandlerOracle) (pre post : List (Rat × Message)) (now : Rat)
    (m : Message) (e : String)
    (h1 : handler m = .error e) (h2 : m.message_type = .command) :
    process_messages agent handler (pre ++ (now, m) :: post)
      = process_messages agent handler pre
        ++ send_error agent now m.sender ("Error processing command: " ++ e) (some m.id)
          :: process_messages agent handler post
    ∧ (send_error agent now m.sender ("Error processing command: " ++ e) (some m.id)).receiver
        = m.sender
    ∧ (send_error agent now m.sender ("Error processing command: " ++ e) (some m.id)).correlation_id
        = some m.id
    ∧ (send_error agent now m.sender ("Error processing command: " ++ e) (some m.id)).message_type
        = .error
    ∧ (send_error agent now m.sender ("Error processing command: " ++ e) (some m.id)).content
        = [("error", Value.vStr ("Error processing command: " ++ e))] := by
  refine ⟨?_, rfl, rfl, rfl, rfl⟩
  rw [process_messages_append]
  simp [process_messages, process_result, h1, h2]

/-- Handler oracle for the C4 witness: every Command raises. -/
def c4_sample_handler : HandlerOracle := fun m =>
  match m.message_type with
  | .command => .error "boom"
  | _ => .ok ()

/-- Command of the C4 witness. -/
def c4_cmd : Message := mkMessage 1 .dialogue .llm .command .medium [] none

/-- Event of the C4 witness, processed after the failing Command. -/
def c4_evt : Message := mkMessage 4 .dialogue .llm .event .medium [] none

/-- C4 witness: a concrete inbox where the first Command fails is processed
into the synthesized Error followed by the processing of the remaining
message. -/
theorem process_messages_error_recovery_witness :
    process_messages .llm c4_sample_handler ([] ++ (2, c4_cmd) :: [(5, c4_evt)])
      = process_messages .llm c4_sample_handler []
        ++ send_error .llm 2 c4_cmd.sender ("Error processing command: " ++ "boom") (some c4_cmd.id)
          :: process_messages .llm c4_sample_handler [(5, c4_evt)] :=
  (process_messages_error_recovery .llm c4_sample_handler [] [(5, c4_evt)] 2
    c4_cmd "boom" rfl rfl).1

/-- C7: the division inside _cosine_similarity is guarded: a vector has
zero magnitude exactly when its self dot product is zero, and whenever
either magnitude is zero the function returns 0 without dividing; and for
every vector with non-zero self dot product the similarity with itself is
exactly 1 over the reals, hence within floating-point tolerance of 1.0. -/
theorem cosine_similarity_guard_and_self (v1 v2 v : List ℝ) :
    (Real.sqrt (dotList v1 v1) = 0 ↔ dotList v1 v1 = 0)
    ∧ ((Real.sqrt (dotList v1 v1) = 0 ∨ Real.sqrt (dotList v2 v2) = 0) →
        cosine_similarity v1 v2 = 0)
    ∧ (dotList v v ≠ 0 → cosine_similarity v v = 1) := by
  have hnn1 := dotList_self_nonneg v1
  refine ⟨?_, ?_, ?_⟩
  · constructor
    · intro h
      exact le_antisymm (Real.sqrt_eq_zero'.mp h) hnn1
    · intro h
      rw [h, Real.sqrt_zero]
  · intro h
    simp only [cosine_similarity]
    rw [if_pos h]
  · intro hd
    have hnn := dotList_self_nonneg v
    have hpos : 0 < dotList v v := lt_of_le_of_ne hnn (Ne.symm hd)
    have hs : Real.sqrt (dotList v v) ≠ 0 := ne_of_gt (Real.sqrt_pos.mpr hpos)
    simp only [cosine_similarity]
    rw [if_neg (by push_neg; exact ⟨hs, hs⟩), Real.mul_self_sqrt hnn]
    exact div_self hd

/-- C7 witness: the similarity of a zero vector with anything is 0, and the
self similarity of a concrete non-zero vector is 1. -/
theorem cosine_similarity_guard_and_self_witness :
    cosine_similarity [(0 : ℝ)] [(1 : ℝ)] = 0
    ∧ cosine_similarity [(1 : ℝ), 2] [(1 : ℝ), 2] = 1 := by
  constructor
  · exact (cosine_similarity_guard_and_self [(0 : ℝ)] [(1 : ℝ)] []).2.1
      (Or.inl (by simp [dotList]))
  · exact (cosine_similarity_guard_and_self [] [] [(1 : ℝ), 2]).2.2
      (by norm_num [dotList])

/-- C6: remove_document deletes the chunk entry and the vector entry of the
document and returns the number of chunks that existed for it, which is 0
when the document was absent because the lookup defaults to the empty list;
the agent handler for remove_document resets the whole query cache to empty
unconditionally; and a subsequent retrieve filtered to that document id
returns the empty result set for every scorer, query and k. -/
theorem remove_document_spec (st : IRAgentState) (d : String) :
    (remove_document st.retriever d).1
      = ((alookup st.retriever.documents d).getD []).length
    ∧ alookup (remove_document st.retriever d).2.documents d = none
    ∧ alookup (remove_document st.retriever d).2.vectors d = none
    ∧ (handle_remove_document st d).1.query_cache = []
    ∧ (handle_remove_document st d).2 = (remove_document st.retriever d).1
    ∧ ∀ score qe k,
        retrieve (remove_document st.retriever d).2 score qe
          [("document_id", FilterVal.single d)] k = [] := by
  refine ⟨rfl, alookup_aeraseAll_self _ _, alookup_aeraseAll_self _ _, rfl, rfl, ?_⟩
  intro score qe k
  have hids : filter_document_ids (remove_document st.retriever d).2
      [("document_id", FilterVal.single d)] = [] := by
    simp [filter_document_ids, alookup, filterValList, remove_document,
      List.filter_cons, alookup_aeraseAll_self]
  simp [retrieve, hids]

theorem descLe_trans (a b c : RResult) : descLe a b → descLe b c → descLe a c := by
  simp only [descLe, decide_eq_true_eq]
  exact fun h1 h2 => le_trans h2 h1

theorem descLe_total (a b : RResult) : descLe a b || descLe b a := by
  simp only [descLe, Bool.or_eq_true, decide_eq_true_eq]
  exact le_total b.score a.score

/-- C5: retrieve returns the first k elements of the stable descending sort
of the scanned candidates: the sorted list is a permutation of the
candidates, the output is sorted by descending score, tied candidates keep
their original scan order in the sorted list, and every candidate left out
scores no higher than every returned result; determinism over repeated
calls is immediate because retrieve is a pure function of the state, the
scorer and the query embedding. -/
theorem retrieve_sorted_topk (s : RetrieverState)
    (score : List Rat → List Rat → Rat) (qe : List Rat)
    (filters : List (String × FilterVal)) (k : Nat) :
    retrieve s score qe filters k
      = ((scan_results s score qe (filter_document_ids s filters)).mergeSort descLe).take k
    ∧ List.Perm
        ((scan_results s score qe (filter_document_ids s filters)).mergeSort descLe)
        (scan_results s score qe (filter_document_ids s filters))
    ∧ (retrieve s score qe filters k).Pairwise (fun a b => b.score ≤ a.score)
    ∧ (∀ x y, descLe x y →
        List.Sublist [x, y] (scan_results s score qe (filter_document_ids s filters)) →
        List.Sublist [x, y]
          ((scan_results s score qe (filter_document_ids s filters)).mergeSort descLe))
    ∧ (∀ x ∈ retrieve s score qe filters k,
        ∀ y ∈ scan_results s score qe (filter_document_ids s filters),
          y.score ≤ x.score
          ∨ (scan_results s score qe (filter_document_ids s filters)).count y
              ≤ (retrieve s score qe filters k).count y) := by
  have htake : retrieve s score qe filters k
      = ((scan_results s score qe (filter_document_ids s filters)).mergeSort descLe).take k := by
    by_cases h : (filter_document_ids s filters).isEmpty
    · have h0 : filter_document_ids s filters = [] := by
        simpa using h
      simp [retrieve, h0, scan_results]
    · simp [retrieve, h]
  have hperm := List.mergeSort_perm
    (scan_results s score qe (filter_document_ids s filters)) descLe
  have hsorted := List.sorted_mergeSort descLe_trans descLe_total
    (scan_results s score qe (filter_document_ids s filters))
  refine ⟨htake, hperm, ?_, ?_, ?_⟩
  · rw [htake]
    exact (List.Pairwise.sublist (List.take_sublist _ _) hsorted).imp
      (fun h => by simpa [descLe] using h)
  · intro x y hxy hsub
    exact List.pair_sublist_mergeSort descLe_trans descLe_total hxy hsub
  · intro x hx y hy
    by_cases hc : (scan_results s score qe (filter_document_ids s filters)).count y
        ≤ (retrieve s score qe filters k).count y
    · exact Or.inr hc
    · left
      set cand := scan_results s score qe (filter_document_ids s filters) with hcand
      set full := cand.mergeSort descLe with hfull
      have hcnt : (retrieve s score qe filters k).count y < cand.count y :=
        lt_of_not_le hc
      have hpc : full.count y = cand.count y := hperm.count_eq y
      have hsplit : full.count y = (full.take k).count y + (full.drop k).count y := by
        rw [← List.count_append, List.take_append_drop]
      have hdroppos : 0 < (full.drop k).count y := by
        rw [htake] at hcnt
        omega
      have hydrop : y ∈ full.drop k := List.count_pos_iff.mp hdroppos
      have hxtake : x ∈ full.take k := by
        rw [htake] at hx
        exact hx
      have hp2 := (List.pairwise_append.mp
        (by rw [List.take_append_drop]; exact hsorted)).2.2 x hxtake y hydrop
      simpa [descLe] using hp2

/-- Concrete chunk a of the C5 witness state. -/
def c5_chunk_a : DocumentChunk :=
  { chunk_id := "a", document_id := "d", content := "A", metadata := []
    embedding := some [1], page_number := none, chunk_number := 0 }

/-- Concrete chunk b of the C5 witness state. -/
def c5_chunk_b : DocumentChunk :=
  { chunk_id := "b", document_id := "d", content := "B", metadata := []
    embedding := some [1], page_number := none, chunk_number := 1 }

/-- Concrete indexed state of the C5 witness: one document with two
embedded chunks. -/
def c5_state : RetrieverState :=
  { documents := [("d", [c5_chunk_a, c5_chunk_b])]
    vectors := [("d", [("a", [1]), ("b", [1])])] }

/-- Constant scorer of the C5 witness, making the two candidates tie. -/
def c5_score : List Rat → List Rat → Rat := fun _ _ => 1

unseal List.merge List.mergeSort in
/-- C5 witness: on the concrete tied state with k = 1, the candidate that
was cut off scores no higher than the returned one. -/
theorem retrieve_sorted_topk_witness :
    (RResult.mk "d" "b" "B" [] 1).score ≤ (RResult.mk "d" "a" "A" [] 1).score
    ∨ (scan_results c5_state c5_score [1] (filter_document_ids c5_state [])).count
          (RResult.mk "d" "b" "B" [] 1)
        ≤ (retrieve c5_state c5_score [1] [] 1).count (RResult.mk "d" "b" "B" [] 1) :=
  (retrieve_sorted_topk c5_state c5_score [1] [] 1).2.2.2.2
    (RResult.mk "d" "a" "A" [] 1) (by decide) (RResult.mk "d" "b" "B" [] 1) (by decide)

theorem vlookup_vset (v : List (String × List (String × List Rat)))
    (dp cp : String) (e : List Rat) (d cid : String) :
    alookup ((alookup (vset v dp cp e) d).getD []) cid
      = if dp = d ∧ cp = cid then some e
        else alookup ((alookup v d).getD []) cid := by
  induction v with
  | nil =>
    by_cases h1 : dp = d
    · subst h1
      by_cases h2 : cp = cid
      · subst h2
        simp [vset, alookup]
      · simp [vset, alookup, h2]
    · simp [vset, alookup, h1]
  | cons p rest ih =>
    obtain ⟨k, inner⟩ := p
    by_cases hk : k = dp
    · subst hk
      by_cases hd : k = d
      · subst hd
        by_cases h2 : cp = cid
        · subst h2
          simp [vset, alookup, alookup_aset_self]
        · simp [vset, alookup, h2, alookup_aset_ne _ _ _ _ (Ne.symm h2)]
      · simp [vset, alookup, hd]
    · by_cases hd : k = d
      · subst hd
        have hne : dp ≠ k := fun hcontra => hk hcontra.symm
        simp [vset, alookup, hk, hne]
      · simp [vset, alookup, hk, hd, ih]

theorem vlookup_foldl_untouched (g d cid : String)
    (lst : List DocumentChunk)
    (v0 : List (String × List (String × List Rat)))
    (H : ∀ c ∈ lst,
      ¬(g = d ∧ c.chunk_id = cid ∧ embedding_is_truthy c.embedding = true)) :
    alookup ((alookup (lst.foldl
        (fun v c =>
          if embedding_is_truthy c.embedding then
            vset v g c.chunk_id (c.embedding.getD [])
          else v)
        v0) d).getD []) cid
      = alookup ((alookup v0 d).getD []) cid := by
  induction lst generalizing v0 with
  | nil => rfl
  | cons c rest ih =>
    simp only [List.foldl_cons]
    have hc := H c (List.mem_cons_self _ _)
    by_cases ht : embedding_is_truthy c.embedding
    · rw [if_pos ht, ih _ (fun c' hc' => H c' (List.mem_cons_of_mem _ hc')),
        vlookup_vset]
      have hno : ¬(g = d ∧ c.chunk_id = cid) := by
        rintro ⟨h1, h2⟩
        exact hc ⟨h1, h2, ht⟩
      rw [if_neg hno]
    · rw [if_neg ht]
      exact ih _ (fun c' hc' => H c' (List.mem_cons_of_mem _ hc'))

theorem vlookup_groups_foldl_untouched (d cid : String) :
    ∀ (groups : List (String × List DocumentChunk)) (s : RetrieverState),
      (∀ p ∈ groups, ∀ c ∈ p.2,
        ¬(p.1 = d ∧ c.chunk_id = cid ∧ embedding_is_truthy c.embedding = true)) →
      vlookup (groups.foldl
          (fun st p =>
            { documents := extendAt st.documents p.1 p.2
              vectors :=
                p.2.foldl
                  (fun v c =>
                    if embedding_is_truthy c.embedding then
                      vset v p.1 c.chunk_id (c.embedding.getD [])
                    else v)
                  st.vectors })
          s) d cid
        = vlookup s d cid := by
  intro groups
  induction groups with
  | nil =>
    intro s _
    rfl
  | cons p groups ih =>
    intro s H
    simp only [List.foldl_cons]
    rw [ih _ (fun q hq => H q (List.mem_cons_of_mem _ hq))]
    exact vlookup_foldl_untouched p.1 d cid p.2 s.vectors
      (fun c hc => H p (List.mem_cons_self _ _) c hc)

theorem vlookup_add_documents_untouched (s : RetrieverState)
    (chunks : List DocumentChunk) (d cid : String)
    (H : ∀ p ∈ groupByDoc chunks, ∀ c ∈ p.2,
      ¬(p.1 = d ∧ c.chunk_id = cid ∧ embedding_is_truthy c.embedding = true)) :
    vlookup (add_documents s chunks) d cid = vlookup s d cid :=
  vlookup_groups_foldl_untouched d cid (groupByDoc chunks) s H

theorem mem_extendAt {γ : Type} (key : String) (lst : List γ) :
    ∀ (acc : List (String × List γ)) (p : String × List γ),
      p ∈ extendAt acc key lst → ∀ c ∈ p.2,
      (∃ q ∈ acc, q.1 = p.1 ∧ c ∈ q.2) ∨ (p.1 = key ∧ c ∈ lst) := by
  intro acc
  induction acc with
  | nil =>
    intro p hp c hc
    simp only [extendAt, List.mem_singleton] at hp
    subst hp
    exact Or.inr ⟨rfl, hc⟩
  | cons q rest ih =>
    intro p hp c hc
    obtain ⟨qk, qv⟩ := q
    by_cases hq : qk = key
    · subst hq
      simp only [extendAt, if_true, eq_self_iff_true, List.mem_cons] at hp
      rcases hp with hp | hp
      · subst hp
        rcases List.mem_append.mp hc with hcv | hcl
        · exact Or.inl ⟨(qk, qv), List.mem_cons_self _ _, rfl, hcv⟩
        · exact Or.inr ⟨rfl, hcl⟩
      · exact Or.inl ⟨p, List.mem_cons_of_mem _ hp, rfl, hc⟩
    · simp only [extendAt, if_neg hq, List.mem_cons] at hp
      rcases hp with hp | hp
      · subst hp
        exact Or.inl ⟨(qk, qv), List.mem_cons_self _ _, rfl, hc⟩
      · rcases ih p hp c hc with ⟨q', hq', he, hc'⟩ | hr
        · exact Or.inl ⟨q', List.mem_cons_of_mem _ hq', he, hc'⟩
        · exact Or.inr hr

theorem mem_foldl_extendAt (P : DocumentChunk → String → Prop) :
    ∀ (l : List DocumentChunk) (acc : List (String × List DocumentChunk)),
      (∀ p ∈ acc, ∀ c ∈ p.2, P c p.1) →
      (∀ c ∈ l, P c c.document_id) →
      ∀ p ∈ l.foldl (fun a c => extendAt a c.document_id [c]) acc,
        ∀ c ∈ p.2, P c p.1 := by
  intro l
  induction l with
  | nil =>
    intro acc hacc _ p hp c hc
    exact hacc p hp c hc
  | cons c0 rest ih =>
    intro acc hacc hl p hp c hc
    refine ih (extendAt acc c0.document_id [c0]) ?_
      (fun c' h => hl c' (List.mem_cons_of_mem _ h)) p hp c hc
    intro p' hp' c' hc'
    rcases mem_extendAt c0.document_id [c0] acc p' hp' c' hc' with
      ⟨q, hq, he, hcq⟩ | ⟨he, hc0⟩
    · rw [← he]
      exact hacc q hq c' hcq
    · rw [he]
      have : c' = c0 := List.mem_singleton.mp hc0
      rw [this]
      exact hl c0 (List.mem_cons_self _ _)

theorem mem_groupByDoc (chunks : List DocumentChunk)
    (p : String × List DocumentChunk) (hp : p ∈ groupByDoc chunks)
    (c : DocumentChunk) (hc : c ∈ p.2) :
    c ∈ chunks ∧ c.document_id = p.1 :=
  mem_foldl_extendAt (fun c d => c ∈ chunks ∧ c.document_id = d) chunks []
    (by intro q hq; cases hq) (fun c hc => ⟨hc, rfl⟩) p hp c hc

/-- C10: the vector-mapping guard of add_documents is Python truthiness,
not a null check: when every chunk of a batch that targets a given
document and chunk key has a non-truthy embedding, meaning null or the
empty list, the vector mapping at that key is left exactly as it was, so
no entry is created for an empty-list embedding; adding a single chunk
creates its vector entry exactly when the embedding is non-null and
non-empty; and retrieve only ever returns results whose document and chunk
key is present in the vector mapping, so an unmapped chunk is never
returned. -/
theorem add_documents_vector_invariant (s : RetrieverState)
    (chunks : List DocumentChunk) (c0 : DocumentChunk) (d cid : String) :
    ((∀ c ∈ chunks, c.document_id = d → c.chunk_id = cid →
          embedding_is_truthy c.embedding = false) →
        vlookup (add_documents s chunks) d cid = vlookup s d cid)
    ∧ vlookup (add_documents s [c0]) c0.document_id c0.chunk_id
        = (if embedding_is_truthy c0.embedding then some (c0.embedding.getD [])
           else vlookup s c0.document_id c0.chunk_id)
    ∧ (∀ score qe filters k r, r ∈ retrieve s score qe filters k →
        (vlookup s r.document_id r.chunk_id).isSome) := by
  refine ⟨?_, ?_, ?_⟩
  · intro H
    apply vlookup_add_documents_untouched
    intro p hp c hc
    rintro ⟨h1, h2, h3⟩
    obtain ⟨hmem, hdoc⟩ := mem_groupByDoc chunks p hp c hc
    have hfalse := H c hmem (by rw [hdoc, h1]) h2
    rw [hfalse] at h3
    cases h3
  · by_cases ht : embedding_is_truthy c0.embedding
    · have hstep : add_documents s [c0]
          = { documents := extendAt s.documents c0.document_id [c0]
              vectors := vset s.vectors c0.document_id c0.chunk_id
                (c0.embedding.getD []) } := by
        simp [add_documents, groupByDoc, extendAt, ht]
      rw [hstep, if_pos ht]
      show alookup ((alookup (vset s.vectors c0.document_id c0.chunk_id
          (c0.embedding.getD [])) c0.document_id).getD []) c0.chunk_id
        = some (c0.embedding.getD [])
      rw [vlookup_vset]
      simp
    · have hstep : add_documents s [c0]
          = { documents := extendAt s.documents c0.document_id [c0]
              vectors := s.vectors } := by
        simp [add_documents, groupByDoc, extendAt, ht]
      rw [hstep, if_neg ht]
      rfl
  · intro score qe filters k r hr
    by_cases he : (filter_document_ids s filters).isEmpty
    · simp [retrieve, he] at hr
    · simp only [retrieve, if_neg he] at hr
      have hr1 : r ∈ (scan_results s score qe (filter_document_ids s filters)).mergeSort descLe :=
        List.mem_of_mem_take hr
      have hr2 := List.mem_mergeSort.mp hr1
      simp only [scan_results] at hr2
      obtain ⟨l', hl', hrl⟩ := List.mem_flatten.mp hr2
      obtain ⟨docId, hdoc, rfl⟩ := List.mem_map.mp hl'
      simp only [per_document_results] at hrl
      obtain ⟨pv, hpv, hf⟩ := List.mem_filterMap.mp hrl
      cases hmatch : chunk_by_id ((alookup s.documents docId).getD []) pv.1 with
      | none =>
        rw [hmatch] at hf
        cases hf
      | some chunk =>
        rw [hmatch] at hf
        have hrec := Option.some.inj hf
        rw [← hrec]
        exact alookup_isSome_of_mem hpv

/-- Chunk with an empty-list embedding for the C10 witness. -/
def c10_chunk : DocumentChunk :=
  { chunk_id := "e", document_id := "d", content := "E", metadata := []
    embedding := some [], page_number := none, chunk_number := 0 }

/-- C10 witness: indexing a chunk whose embedding is the empty list leaves
the vector mapping at its key untouched. -/
theorem add_documents_vector_invariant_witness :
    vlookup (add_documents (RetrieverState.mk [] []) [c10_chunk]) "d" "e"
      = vlookup (RetrieverState.mk [] []) "d" "e" :=
  (add_documents_vector_invariant (RetrieverState.mk [] []) [c10_chunk]
    c10_chunk "d" "e").1 (by decide)

end IARA
